import Mathlib

/-!
Verification of the book-recommendation application core.

The repository ships the React frontend (src/App.js) together with a README
describing the FastAPI backend; the backend module itself is not part of the
checked-in sources, so the Genre Analyzer, Recommendation Engine, Statistics
reporter and the mark-as-read store operation are modelled here from the
specification, faithful to its words.  The frontend rendering logic for the
is_read field is embedded directly from src/App.js.
-/

set_option autoImplicit false

namespace BookRec

/-- Modelled from the spec: a `User` record of the Book Store (§3):
`id` unique, `name` a string. -/
structure User where
  id : Nat
  name : String
deriving DecidableEq, Repr

/-- Modelled from the spec: a `Book` record of the Book Store (§3):
`id` unique, free-text `title`, `author`, `genre`, optional `cover_url`,
`is_read` flag (default unread), `rating` integer 0-5, `owner_user_id`
relation to a `User`. -/
structure Book where
  id : Nat
  title : String
  author : String
  genre : String
  cover_url : Option String
  is_read : Bool
  rating : Int
  owner_user_id : Nat
deriving DecidableEq, Repr

/-- Modelled from the spec: the Book Store state, the persisted `User` and
`Book` records in insertion order (§2, §6). -/
structure Store where
  users : List User
  books : List Book
deriving DecidableEq, Repr

/-- Modelled from the spec: the error kinds surfaced to the caller (§7). -/
inductive ApiError where
  | NotFound
  | Conflict
  | ValidationError
deriving DecidableEq, Repr

/-- Modelled from the spec: one tally step of the Genre Analyzer (§4.1) on an
association list from genre string to count: bump the count of an existing
key, or append a fresh key with count 1, so keys stay in first-encounter
order. -/
def bump : List (String × Nat) → String → List (String × Nat)
  | [], g => [(g, 1)]
  | (k, n) :: rest, g =>
    if k = g then (k, n + 1) :: rest else (k, n) :: bump rest g

/-- Modelled from the spec: tally occurrences of each genre value over a list
of genre strings, case-sensitive exact match (§4.1). -/
def tally (gs : List String) : List (String × Nat) :=
  gs.foldl bump []

/-- Count recorded for a key in a genre-count association list (0 when the key
is absent); the first matching entry decides, as in the store lookup. -/
def lookupCount : List (String × Nat) → String → Nat
  | [], _ => 0
  | (k, n) :: rest, g => if k = g then n else lookupCount rest g

/-- Modelled from the spec: pick the entry with the highest count, ties broken
in favour of the earlier entry of the association list, which is
first-encounter order (§4.1). -/
def pickFav : (String × Nat) → List (String × Nat) → (String × Nat)
  | best, [] => best
  | best, e :: rest =>
    if best.2 < e.2 then pickFav e rest else pickFav best rest

/-- Modelled from the spec: result shape of the Genre Analyzer (§4.1). -/
structure GenreStats where
  genreCounts : List (String × Nat)
  favoriteGenre : Option String
deriving DecidableEq, Repr

/-- Modelled from the spec: `computeGenreStats` (§4.1): tally the genres of the
given read books; the favorite genre is the key with the highest count, ties
broken by first-encountered order, and `none` on empty input. -/
def computeGenreStats (readBooks : List Book) : GenreStats :=
  let counts := tally (readBooks.map Book.genre)
  { genreCounts := counts
    favoriteGenre :=
      match counts with
      | [] => none
      | e :: rest => some (pickFav e rest).1 }

theorem bump_lookupCount (acc : List (String × Nat)) (g g' : String) :
    lookupCount (bump acc g) g' =
      lookupCount acc g' + (if g = g' then 1 else 0) := by
  induction acc with
  | nil =>
    by_cases h : g = g' <;> simp [bump, lookupCount, h]
  | cons e rest ih =>
    obtain ⟨k, n⟩ := e
    by_cases hk : k = g
    · subst hk
      by_cases h : k = g' <;> simp [bump, lookupCount, h]
    · by_cases h : k = g'
      · subst h
        have hg : ¬ g = k := fun hgg => hk hgg.symm
        simp [bump, lookupCount, hk, hg]
      · simp [bump, lookupCount, hk, h, ih]

theorem foldl_bump_lookupCount (gs : List String) :
    ∀ (acc : List (String × Nat)) (g : String),
      lookupCount (gs.foldl bump acc) g = lookupCount acc g + gs.count g := by
  induction gs with
  | nil => intro acc g; simp
  | cons x xs ih =>
    intro acc g
    rw [List.foldl_cons, ih, bump_lookupCount]
    by_cases h : x = g
    · subst h; simp [List.count_cons]; omega
    · have h2 : ¬ (g = x) := fun hgx => h hgx.symm
      simp [List.count_cons, h, h2]

theorem tally_lookupCount (gs : List String) (g : String) :
    lookupCount (tally gs) g = gs.count g := by
  rw [tally, foldl_bump_lookupCount]
  simp [lookupCount]

theorem bump_sum (acc : List (String × Nat)) (g : String) :
    ((bump acc g).map Prod.snd).sum = (acc.map Prod.snd).sum + 1 := by
  induction acc with
  | nil => simp [bump]
  | cons e rest ih =>
    obtain ⟨k, n⟩ := e
    by_cases hk : k = g
    · simp [bump, hk]; omega
    · simp [bump, hk, ih]; omega

theorem foldl_bump_sum (gs : List String) :
    ∀ acc : List (String × Nat),
      ((gs.foldl bump acc).map Prod.snd).sum = (acc.map Prod.snd).sum + gs.length := by
  induction gs with
  | nil => intro acc; simp
  | cons x xs ih =>
    intro acc
    rw [List.foldl_cons, ih, bump_sum, List.length_cons]
    omega

theorem tally_sum (gs : List String) :
    ((tally gs).map Prod.snd).sum = gs.length := by
  rw [tally, foldl_bump_sum]
  simp

/-- Left-to-right first-occurrence deduplication of a list of genre strings,
skipping the strings already `seen`; specifies the key order produced by
`tally`. -/
def dedupFrom : List String → List String → List String
  | _, [] => []
  | seen, g :: gs =>
    if g ∈ seen then dedupFrom seen gs else g :: dedupFrom (g :: seen) gs

/-- Index of the first occurrence of a genre string in a list (length when
absent). -/
def firstIdx : List String → String → Nat
  | [], _ => 0
  | x :: xs, g => if x = g then 0 else firstIdx xs g + 1

theorem not_mem_seen_of_mem_dedupFrom :
    ∀ (gs seen : List String) (x : String), x ∈ dedupFrom seen gs → x ∉ seen := by
  intro gs
  induction gs with
  | nil => intro seen x hx; simp [dedupFrom] at hx
  | cons g gs ih =>
    intro seen x hx
    by_cases hg : g ∈ seen
    · exact ih seen x (by simpa [dedupFrom, hg] using hx)
    · rw [dedupFrom, if_neg hg] at hx
      rcases List.mem_cons.mp hx with h | h
      · subst h; exact hg
      · intro hxs
        exact ih (g :: seen) x h (List.mem_cons_of_mem g hxs)

theorem dedupFrom_firstIdx_lt :
    ∀ (gs seen A B : List String) (g k : String),
      dedupFrom seen gs = A ++ g :: B → k ∈ B →
      firstIdx gs g < firstIdx gs k := by
  intro gs
  induction gs with
  | nil =>
    intro seen A B g k h hk
    simp [dedupFrom] at h
  | cons x xs ih =>
    intro seen A B g k h hk
    have hgmem : g ∈ dedupFrom seen (x :: xs) := by
      rw [h]; exact List.mem_append_right A (List.mem_cons_self g B)
    have hkmem : k ∈ dedupFrom seen (x :: xs) := by
      rw [h]; exact List.mem_append_right A (List.mem_cons_of_mem g hk)
    by_cases hx : x ∈ seen
    · rw [dedupFrom, if_pos hx] at h
      have hxg : x ≠ g := by
        intro he; subst he
        exact not_mem_seen_of_mem_dedupFrom _ _ _ hgmem hx
      have hxk : x ≠ k := by
        intro he; subst he
        exact not_mem_seen_of_mem_dedupFrom _ _ _ hkmem hx
      have := ih seen A B g k h hk
      simpa [firstIdx, hxg, hxk] using Nat.add_lt_add_right this 1
    · rw [dedupFrom, if_neg hx] at h
      cases A with
      | nil =>
        simp only [List.nil_append] at h
        obtain ⟨hxg, hB⟩ := List.cons.injEq x (dedupFrom (x :: seen) xs) g B ▸ h
        have hg : x = g := by
          have := congrArg (fun l => List.head? l) h
          simpa using this
        have hBeq : dedupFrom (x :: seen) xs = B := by
          have := congrArg (fun l => List.tail l) h
          simpa using this
        have hkx : k ≠ x := by
          intro he; subst he
          have : k ∈ dedupFrom (k :: seen) xs := hBeq ▸ hk
          exact not_mem_seen_of_mem_dedupFrom _ _ _ this (List.mem_cons_self k seen)
        have hxk : ¬ (x = k) := fun he => hkx he.symm
        subst hg
        simp [firstIdx, hxk]
      | cons a A =>
        have hax : x = a := by
          have := congrArg (fun l => List.head? l) h
          simpa using this
        subst hax
        have htail : dedupFrom (x :: seen) xs = A ++ g :: B := by
          have := congrArg (fun l => List.tail l) h
          simpa using this
        have hag : x ≠ g := by
          intro he; subst he
          have : x ∈ dedupFrom (x :: seen) xs := by
            rw [htail]; exact List.mem_append_right A (List.mem_cons_self x B)
          exact not_mem_seen_of_mem_dedupFrom _ _ _ this (List.mem_cons_self x seen)
        have hak : x ≠ k := by
          intro he; subst he
          have : x ∈ dedupFrom (x :: seen) xs := by
            rw [htail]; exact List.mem_append_right A (List.mem_cons_of_mem g hk)
          exact not_mem_seen_of_mem_dedupFrom _ _ _ this (List.mem_cons_self x seen)
        have := ih (x :: seen) A B g k htail hk
        simpa [firstIdx, hag, hak] using Nat.add_lt_add_right this 1

theorem bump_keys (acc : List (String × Nat)) (g : String) :
    (bump acc g).map Prod.fst =
      if g ∈ acc.map Prod.fst then acc.map Prod.fst
      else acc.map Prod.fst ++ [g] := by
  induction acc with
  | nil => simp [bump]
  | cons e rest ih =>
    obtain ⟨k, n⟩ := e
    by_cases hk : k = g
    · subst hk
      simp [bump]
    · have hk2 : ¬ (g = k) := fun he => hk he.symm
      by_cases hmem : g ∈ rest.map Prod.fst
      · simp [bump, hk, hk2, hmem, ih]
      · simp [bump, hk, hk2, hmem, ih]

theorem foldl_bump_keys (gs : List String) :
    ∀ (acc : List (String × Nat)) (seen : List String),
      (∀ x, x ∈ seen ↔ x ∈ acc.map Prod.fst) →
      (gs.foldl bump acc).map Prod.fst = acc.map Prod.fst ++ dedupFrom seen gs := by
  induction gs with
  | nil => intro acc seen _; simp [dedupFrom]
  | cons g gs ih =>
    intro acc seen hseen
    rw [List.foldl_cons]
    by_cases hg : g ∈ seen
    · have hacc : g ∈ acc.map Prod.fst := (hseen g).mp hg
      have hkeys : (bump acc g).map Prod.fst = acc.map Prod.fst := by
        rw [bump_keys, if_pos hacc]
      rw [ih (bump acc g) seen (by intro x; rw [hkeys]; exact hseen x), hkeys,
        dedupFrom, if_pos hg]
    · have hacc : g ∉ acc.map Prod.fst := fun hm => hg ((hseen g).mpr hm)
      have hkeys : (bump acc g).map Prod.fst = acc.map Prod.fst ++ [g] := by
        rw [bump_keys, if_neg hacc]
      have hseen2 : ∀ x, x ∈ g :: seen ↔ x ∈ (bump acc g).map Prod.fst := by
        intro x
        rw [hkeys, List.mem_append, List.mem_cons, List.mem_singleton]
        constructor
        · rintro (h | h)
          · exact Or.inr h
          · exact Or.inl ((hseen x).mp h)
        · rintro (h | h)
          · exact Or.inr ((hseen x).mpr h)
          · exact Or.inl h
      rw [ih (bump acc g) (g :: seen) hseen2, hkeys, dedupFrom, if_neg hg,
        List.append_assoc, List.singleton_append]

theorem tally_keys (gs : List String) :
    (tally gs).map Prod.fst = dedupFrom [] gs := by
  rw [tally, foldl_bump_keys gs [] []]
  · simp
  · intro x; simp

theorem dedupFrom_nodup : ∀ (gs seen : List String), (dedupFrom seen gs).Nodup := by
  intro gs
  induction gs with
  | nil => intro seen; simp [dedupFrom]
  | cons g gs ih =>
    intro seen
    by_cases hg : g ∈ seen
    · rw [dedupFrom, if_pos hg]; exact ih seen
    · rw [dedupFrom, if_neg hg]
      refine List.nodup_cons.mpr ⟨?_, ih (g :: seen)⟩
      intro hmem
      exact not_mem_seen_of_mem_dedupFrom _ _ _ hmem (List.mem_cons_self g seen)

theorem tally_keys_nodup (gs : List String) :
    ((tally gs).map Prod.fst).Nodup := by
  rw [tally_keys]; exact dedupFrom_nodup gs []

theorem lookupCount_of_mem :
    ∀ (l : List (String × Nat)) (g : String) (n : Nat),
      (l.map Prod.fst).Nodup → (g, n) ∈ l → lookupCount l g = n := by
  intro l
  induction l with
  | nil => intro g n _ hm; simp at hm
  | cons e rest ih =>
    intro g n hnd hm
    obtain ⟨k, m⟩ := e
    rw [List.map_cons, List.nodup_cons] at hnd
    rcases List.mem_cons.mp hm with h | h
    · have hgk : k = g := by
        have := congrArg Prod.fst h
        simpa using this.symm
      have hmn : m = n := by
        have := congrArg Prod.snd h
        simpa using this.symm
      simp [lookupCount, hgk, hmn]
    · have hkg : k ≠ g := by
        intro he; subst he
        exact hnd.1 (by simpa using List.mem_map_of_mem Prod.fst h)
      rw [lookupCount, if_neg hkg]
      exact ih g n hnd.2 h

theorem mem_keys_of_lookupCount_ne_zero :
    ∀ (l : List (String × Nat)) (g : String),
      lookupCount l g ≠ 0 → g ∈ l.map Prod.fst := by
  intro l
  induction l with
  | nil => intro g h; simp [lookupCount] at h
  | cons e rest ih =>
    intro g h
    obtain ⟨k, m⟩ := e
    by_cases hk : k = g
    · simp [hk]
    · rw [lookupCount, if_neg hk] at h
      exact List.mem_cons_of_mem _ (ih g h)

theorem mem_of_mem_keys :
    ∀ (l : List (String × Nat)) (g : String),
      g ∈ l.map Prod.fst → (g, lookupCount l g) ∈ l := by
  intro l
  induction l with
  | nil => intro g h; simp at h
  | cons e rest ih =>
    intro g h
    obtain ⟨k, m⟩ := e
    by_cases hk : k = g
    · subst hk
      simp [lookupCount]
    · rw [lookupCount, if_neg hk]
      have h2 : g = k ∨ g ∈ rest.map Prod.fst := by
        rw [List.map_cons] at h
        exact List.mem_cons.mp h
      rcases h2 with h2 | h2
      · exact absurd h2.symm hk
      · exact List.mem_cons_of_mem _ (ih g h2)

theorem pickFav_spec :
    ∀ (l : List (String × Nat)) (best : String × Nat),
      ∃ l₁ l₂, best :: l = l₁ ++ pickFav best l :: l₂ ∧
        (∀ p ∈ l₁, p.2 < (pickFav best l).2) ∧
        (∀ p ∈ best :: l, p.2 ≤ (pickFav best l).2) := by
  intro l
  induction l with
  | nil =>
    intro best
    exact ⟨[], [], by simp [pickFav], by simp, by simp [pickFav]⟩
  | cons e rest ih =>
    intro best
    by_cases hlt : best.2 < e.2
    · rw [pickFav, if_pos hlt]
      obtain ⟨l₁, l₂, heq, hpre, hle⟩ := ih e
      have hbound : best.2 ≤ (pickFav e rest).2 :=
        le_of_lt (lt_of_lt_of_le hlt (hle e (List.mem_cons_self e rest)))
      refine ⟨best :: l₁, l₂, by rw [List.cons_append, ← heq], ?_, ?_⟩
      · intro p hp
        rcases List.mem_cons.mp hp with h | h
        · subst h; exact lt_of_lt_of_le hlt (hle e (List.mem_cons_self e rest))
        · exact hpre p h
      · intro p hp
        rcases List.mem_cons.mp hp with h | h
        · subst h; exact hbound
        · exact hle p h
    · rw [pickFav, if_neg hlt]
      have he : e.2 ≤ best.2 := Nat.le_of_not_lt hlt
      obtain ⟨l₁, l₂, heq, hpre, hle⟩ := ih best
      cases l₁ with
      | nil =>
        simp only [List.nil_append] at heq
        have hb : pickFav best rest = best := by
          have := congrArg (fun l => List.head? l) heq
          simpa using this.symm
        have hl₂ : l₂ = rest := by
          have := congrArg (fun l => List.tail l) heq
          simpa [hb] using this.symm
        refine ⟨[], e :: rest, by simp [hb], by simp, ?_⟩
        intro p hp
        rcases List.mem_cons.mp hp with h | h
        · rw [h]; exact hle best (List.mem_cons_self best rest)
        · rcases List.mem_cons.mp h with h2 | h2
          · subst h2; rw [hb]; exact he
          · exact hle p (List.mem_cons_of_mem best h2)
      | cons q l₁ =>
        have hq : best = q := by
          have := congrArg (fun l => List.head? l) heq
          simpa using this
        have hrest : rest = l₁ ++ pickFav best rest :: l₂ := by
          have := congrArg (fun l => List.tail l) heq
          simpa using this
        have hbestlt : best.2 < (pickFav best rest).2 := by
          have := hpre q (List.mem_cons_self q l₁)
          rwa [← hq] at this
        refine ⟨best :: e :: l₁, l₂, by rw [List.cons_append, List.cons_append, ← hrest], ?_, ?_⟩
        · intro p hp
          rcases List.mem_cons.mp hp with h | h
          · subst h; exact hbestlt
          · rcases List.mem_cons.mp h with h2 | h2
            · subst h2; exact lt_of_le_of_lt he hbestlt
            · exact hpre p (hq ▸ List.mem_cons_of_mem q h2)
        · intro p hp
          rcases List.mem_cons.mp hp with h | h
          · rw [h]; exact hle best (List.mem_cons_self best rest)
          · rcases List.mem_cons.mp h with h2 | h2
            · subst h2; exact le_of_lt (lt_of_le_of_lt he hbestlt)
            · exact hle p (List.mem_cons_of_mem best h2)

/-- Modelled from the spec: look up a user by id (§6); the first stored user
whose id matches. -/
def findUser (s : Store) (uid : Nat) : Option User :=
  s.users.find? (fun u => decide (u.id = uid))

/-- Modelled from the spec: look up a book by id (§6); the first stored book
whose id matches. -/
def findBook (s : Store) (bid : Nat) : Option Book :=
  s.books.find? (fun b => decide (b.id = bid))

/-- Modelled from the spec: `listBooksForUser` (§6), the user's book set in
insertion order. -/
def listBooksForUser (s : Store) (uid : Nat) : List Book :=
  s.books.filter (fun b => decide (b.owner_user_id = uid))

/-- Modelled from the spec: `listReadBooksForUser` (§6), the subset with
`is_read = true`. -/
def listReadBooksForUser (s : Store) (uid : Nat) : List Book :=
  (listBooksForUser s uid).filter (fun b => b.is_read)

/-- The ids of the requesting user's existing book set, read or unread
(§4.2). -/
def ownedBookIds (s : Store) (uid : Nat) : List Nat :=
  (listBooksForUser s uid).map Book.id

/-- Modelled from the spec: the small fixed maximum count of suggestions
(§4.2 Step 3 caps at 5). -/
def suggestionCap : Nat := 5

/-- Modelled from the spec: the designated fallback label (§4.2). -/
def fallbackLabel : String := "Popular"

/-- Modelled from the spec: the fixed explanatory string referencing the
favorite genre (§4.2). -/
def favoriteReason (g : String) : String :=
  "Based on your favorite genre: " ++ g

/-- Modelled from the spec: the fixed string explaining the fallback
(§4.2). -/
def fallbackReason : String :=
  "Popular books to get you started"

/-- Modelled from the spec: the globally most-common genre across all books in
the catalog (§4.2 fallback), computed with the same tally and tie-break. -/
def mostCommonGenre (books : List Book) : Option String :=
  match tally (books.map Book.genre) with
  | [] => none
  | e :: rest => some (pickFav e rest).1

/-- Catalog books with the given genre that are not in the requesting user's
book set, in catalog order (§4.2). -/
def genreCandidates (s : Store) (uid : Nat) (g : String) : List Book :=
  s.books.filter (fun b => decide (b.genre = g ∧ b.id ∉ ownedBookIds s uid))

/-- Modelled from the spec: the candidate set of §4.2, favorite-genre books
when a favorite exists, otherwise books of the globally most-common genre,
excluding owned books in both branches. -/
def candidateSet (s : Store) (uid : Nat) : List Book :=
  match (computeGenreStats (listReadBooksForUser s uid)).favoriteGenre with
  | some g => genreCandidates s uid g
  | none =>
    match mostCommonGenre s.books with
    | some g => genreCandidates s uid g
    | none => []

/-- Modelled from the spec: the recommended genre of the branch taken
(§4.2 Step 2). -/
def branchGenre (s : Store) (uid : Nat) : String :=
  match (computeGenreStats (listReadBooksForUser s uid)).favoriteGenre with
  | some g => g
  | none => fallbackLabel

/-- Modelled from the spec: the reason string of the branch taken
(§4.2 Step 2). -/
def branchReason (s : Store) (uid : Nat) : String :=
  match (computeGenreStats (listReadBooksForUser s uid)).favoriteGenre with
  | some g => favoriteReason g
  | none => fallbackReason

/-- Modelled from the spec: result shape of the Recommendation Engine
(§3, §4.2). -/
structure Recommendation where
  recommended_genre : String
  reason : String
  suggested_books : List Book
deriving DecidableEq, Repr

/-- Modelled from the spec: `getRecommendations` (§4.2): NotFound when the
user id does not resolve, otherwise the branch genre and reason with the
candidate set capped at the fixed maximum. -/
def getRecommendations (s : Store) (uid : Nat) : Except ApiError Recommendation :=
  match findUser s uid with
  | none => .error .NotFound
  | some _ =>
    .ok { recommended_genre := branchGenre s uid
          reason := branchReason s uid
          suggested_books := (candidateSet s uid).take suggestionCap }

/-- Modelled from the spec: result shape of the Statistics reporter (§4.3). -/
structure UserStats where
  user : User
  total_books : Nat
  favorite_genre : Option String
  genre_counts : List (String × Nat)
deriving DecidableEq, Repr

/-- Modelled from the spec: `getUserStats` (§4.3): the user, the count of
books with `is_read = true`, and the Genre Analyzer output on the read
books. -/
def getUserStats (s : Store) (uid : Nat) : Except ApiError UserStats :=
  match findUser s uid with
  | none => .error .NotFound
  | some u =>
    .ok { user := u
          total_books := (listReadBooksForUser s uid).length
          favorite_genre := (computeGenreStats (listReadBooksForUser s uid)).favoriteGenre
          genre_counts := (computeGenreStats (listReadBooksForUser s uid)).genreCounts }

/-- Modelled from the spec: a rating is valid when it lies in the integer
range 0-5 (§3, §7). -/
def validRating (r : Int) : Bool :=
  decide (0 ≤ r ∧ r ≤ 5)

/-- Modelled from the spec: mutate the first stored book with the given id,
setting `is_read = true` and assigning the rating, leaving every other field
and every other book unchanged (§3 lifecycle); `none` when no book matches. -/
def updateFirst (bid : Nat) (r : Int) : List Book → Option (List Book × Book)
  | [] => none
  | b :: rest =>
    if b.id = bid then
      some (({ b with is_read := true, rating := r } : Book) :: rest,
        { b with is_read := true, rating := r })
    else
      match updateFirst bid r rest with
      | none => none
      | some (rest2, b2) => some (b :: rest2, b2)

/-- Modelled from the spec: `markBookRead` (§6, §7): ValidationError on an
out-of-range rating, NotFound when the book id is unknown, otherwise the
updated store and book. -/
def markBookRead (s : Store) (bid : Nat) (r : Int) : Except ApiError (Store × Book) :=
  if validRating r then
    match updateFirst bid r s.books with
    | none => .error .NotFound
    | some (books2, b2) => .ok ({ s with books := books2 }, b2)
  else .error .ValidationError

/-- A book as serialized at the JSON API boundary, as consumed by
src/App.js: `is_read` arrives as an integer. -/
structure ApiBook where
  id : Nat
  title : String
  author : String
  genre : String
  cover_url : Option String
  is_read : Int
  rating : Int
deriving DecidableEq, Repr

/-- Modelled from the spec: serialization of a stored book at the API
boundary of the SQLite-backed store, where the boolean flag is carried as the
integer 0 or 1 (README: SQLite database; src/App.js compares with 0 and 1). -/
def serializeBook (b : Book) : ApiBook :=
  { id := b.id, title := b.title, author := b.author, genre := b.genre,
    cover_url := b.cover_url,
    is_read := if b.is_read then 1 else 0,
    rating := b.rating }

/-- From src/App.js line 396: the mark-as-read picker offers
`books.filter(book => book.is_read === 0)`. -/
def markReadPickerOptions (books : List ApiBook) : List ApiBook :=
  books.filter (fun b => decide (b.is_read = 0))

/-- From src/App.js lines 485-500: a library book card shows the read badge
and its rating exactly when `book.is_read === 1`. -/
def renderedAsRead (b : ApiBook) : Bool :=
  decide (b.is_read = 1)

/-- Sample users exercising the specification scenarios. -/
def demoUsers : List User :=
  [{ id := 1, name := "Alice" }, { id := 2, name := "Bob" }]

/-- Sample book 1: read Sci-Fi owned by Alice, rating 5. -/
def demoBook1 : Book :=
  { id := 1, title := "Dune", author := "Herbert", genre := "Sci-Fi",
    cover_url := none, is_read := true, rating := 5, owner_user_id := 1 }

/-- Sample book 2: read Sci-Fi owned by Alice, rating 4. -/
def demoBook2 : Book :=
  { id := 2, title := "Foundation", author := "Asimov", genre := "Sci-Fi",
    cover_url := none, is_read := true, rating := 4, owner_user_id := 1 }

/-- Sample book 3: read Drama owned by Alice, rating 3. -/
def demoBook3 : Book :=
  { id := 3, title := "Hamlet", author := "Shakespeare", genre := "Drama",
    cover_url := none, is_read := true, rating := 3, owner_user_id := 1 }

/-- Sample book 4: unread Sci-Fi owned by Bob. -/
def demoBook4 : Book :=
  { id := 4, title := "Neuromancer", author := "Gibson", genre := "Sci-Fi",
    cover_url := none, is_read := false, rating := 0, owner_user_id := 2 }

/-- Sample book 5: unread Sci-Fi owned by Bob. -/
def demoBook5 : Book :=
  { id := 5, title := "Snow Crash", author := "Stephenson", genre := "Sci-Fi",
    cover_url := none, is_read := false, rating := 0, owner_user_id := 2 }

/-- Sample catalog: Alice owns three read books with genres Sci-Fi, Sci-Fi,
Drama and ratings 5, 4, 3; Bob owns two unread Sci-Fi books. -/
def demoBooks : List Book :=
  [demoBook1, demoBook2, demoBook3, demoBook4, demoBook5]

/-- Sample store built from the sample users and catalog. -/
def demoStore : Store :=
  { users := demoUsers, books := demoBooks }

/-- Sample store whose catalog is empty. -/
def emptyCatalogStore : Store :=
  { users := demoUsers, books := [] }

theorem mem_genreCandidates (s : Store) (uid : Nat) (g : String) (b : Book) :
    b ∈ genreCandidates s uid g ↔
      b ∈ s.books ∧ b.genre = g ∧ b.id ∉ ownedBookIds s uid := by
  simp [genreCandidates, List.mem_filter]

theorem mem_candidateSet (s : Store) (uid : Nat) (b : Book)
    (hb : b ∈ candidateSet s uid) :
    b ∈ s.books ∧ b.id ∉ ownedBookIds s uid := by
  unfold candidateSet at hb
  split at hb
  · have := (mem_genreCandidates s uid _ b).mp hb
    exact ⟨this.1, this.2.2⟩
  · split at hb
    · have := (mem_genreCandidates s uid _ b).mp hb
      exact ⟨this.1, this.2.2⟩
    · simp at hb

theorem getRecommendations_ok (s : Store) (uid : Nat) (u : User)
    (h : findUser s uid = some u) :
    getRecommendations s uid =
      .ok { recommended_genre := branchGenre s uid
            reason := branchReason s uid
            suggested_books := (candidateSet s uid).take suggestionCap } := by
  unfold getRecommendations
  rw [h]

theorem getRecommendations_err (s : Store) (uid : Nat)
    (h : findUser s uid = none) :
    getRecommendations s uid = .error .NotFound := by
  unfold getRecommendations
  rw [h]

/-- Claim C1: for every user and every store state, no book returned in
`getRecommendations(userId).suggested_books` has an id that occurs in that
user's existing book set (read or unread); this holds on both the
favorite-genre branch and the fallback branch. -/
theorem getRecommendations_no_owned_ids (s : Store) (uid : Nat)
    (rec : Recommendation) (h : getRecommendations s uid = Except.ok rec) :
    ∀ b ∈ rec.suggested_books, b.id ∉ ownedBookIds s uid := by
  intro b hb
  unfold getRecommendations at h
  cases hu : findUser s uid with
  | none => rw [hu] at h; cases h
  | some u =>
    rw [hu] at h
    cases h
    have hb2 : b ∈ candidateSet s uid :=
      List.take_subset suggestionCap (candidateSet s uid) hb
    exact (mem_candidateSet s uid b hb2).2

/-- Witness for C1 at the sample store: the fourth sample book, suggested to
the first user, is not among that user's owned book ids. -/
theorem getRecommendations_no_owned_ids_witness :
    demoBook4.id ∉ ownedBookIds demoStore 1 :=
  getRecommendations_no_owned_ids demoStore 1
    { recommended_genre := "Sci-Fi"
      reason := favoriteReason "Sci-Fi"
      suggested_books := [demoBook4, demoBook5] }
    (by rfl) demoBook4 (by simp)

theorem tally_ne_nil (gs : List String) (h : gs ≠ []) : tally gs ≠ [] := by
  intro he
  have hs := tally_sum gs
  rw [he] at hs
  simp at hs
  exact h (List.eq_nil_of_length_eq_zero hs.symm)

theorem computeGenreStats_genreCounts (readBooks : List Book) :
    (computeGenreStats readBooks).genreCounts = tally (readBooks.map Book.genre) := rfl

theorem computeGenreStats_favorite_some (readBooks : List Book) (e : String × Nat)
    (rest : List (String × Nat))
    (hc : tally (readBooks.map Book.genre) = e :: rest) :
    (computeGenreStats readBooks).favoriteGenre = some (pickFav e rest).1 := by
  unfold computeGenreStats
  simp only [hc]

/-- Claim C2: for every user with at least one read book, getRecommendations
returns `recommended_genre` equal to the favorite genre, with the fixed
explanatory reason, and `suggested_books` equal to the catalog books whose
genre exactly equals the favorite genre and that are not in the user's book
set, in catalog order, truncated to the fixed maximum count 5. -/
theorem getRecommendations_favorite_branch (s : Store) (uid : Nat) (u : User)
    (hu : findUser s uid = some u)
    (hne : listReadBooksForUser s uid ≠ []) :
    ∃ g, (computeGenreStats (listReadBooksForUser s uid)).favoriteGenre = some g ∧
      getRecommendations s uid =
        Except.ok
          { recommended_genre := g
            reason := favoriteReason g
            suggested_books :=
              (s.books.filter (fun b =>
                decide (b.genre = g ∧ b.id ∉ ownedBookIds s uid))).take 5 } := by
  have hgs : (listReadBooksForUser s uid).map Book.genre ≠ [] := by
    intro he
    exact hne (List.map_eq_nil_iff.mp he)
  have htal := tally_ne_nil _ hgs
  cases hc : tally ((listReadBooksForUser s uid).map Book.genre) with
  | nil => exact absurd hc htal
  | cons e rest =>
    have hfav := computeGenreStats_favorite_some (listReadBooksForUser s uid) e rest hc
    refine ⟨(pickFav e rest).1, hfav, ?_⟩
    rw [getRecommendations_ok s uid u hu]
    simp only [branchGenre, branchReason, candidateSet, genreCandidates,
      suggestionCap, hfav]

/-- Witness for C2 at the sample store: the first sample user has read books,
and the suggestions are the unowned Sci-Fi catalog books capped at 5. -/
theorem getRecommendations_favorite_branch_witness :
    ∃ g, (computeGenreStats (listReadBooksForUser demoStore 1)).favoriteGenre = some g ∧
      getRecommendations demoStore 1 =
        Except.ok
          { recommended_genre := g
            reason := favoriteReason g
            suggested_books :=
              (demoStore.books.filter (fun b =>
                decide (b.genre = g ∧ b.id ∉ ownedBookIds demoStore 1))).take 5 } :=
  getRecommendations_favorite_branch demoStore 1 { id := 1, name := "Alice" }
    (by rfl) (by decide)

/-- Claim C3: `computeGenreStats` returns `favoriteGenre = none` exactly on
the empty list; on a non-empty list the favorite genre is a key of the counts
whose count is greater than or equal to every other count, and among genres
tied at the maximum it is the one whose first occurrence comes earliest in
the input list. -/
theorem computeGenreStats_favorite_spec (readBooks : List Book) :
    ((computeGenreStats readBooks).favoriteGenre = none ↔ readBooks = []) ∧
    (∀ g, (computeGenreStats readBooks).favoriteGenre = some g →
      ∃ n, (g, n) ∈ (computeGenreStats readBooks).genreCounts ∧
        (∀ p ∈ (computeGenreStats readBooks).genreCounts, p.2 ≤ n) ∧
        (∀ p ∈ (computeGenreStats readBooks).genreCounts, p.2 = n → p.1 ≠ g →
          firstIdx (readBooks.map Book.genre) g <
            firstIdx (readBooks.map Book.genre) p.1)) := by
  constructor
  · constructor
    · intro hnone
      by_contra hne
      have hgs : (readBooks.map Book.genre) ≠ [] := by
        intro he
        exact hne (List.map_eq_nil_iff.mp he)
      have htal := tally_ne_nil _ hgs
      cases hc : tally (readBooks.map Book.genre) with
      | nil => exact absurd hc htal
      | cons e rest =>
        have := computeGenreStats_favorite_some readBooks e rest hc
        rw [hnone] at this
        cases this
    · intro he
      subst he
      rfl
  · intro g hfav
    cases hc : tally (readBooks.map Book.genre) with
    | nil =>
      exfalso
      unfold computeGenreStats at hfav
      simp only [hc] at hfav
      cases hfav
    | cons e rest =>
      have hfav2 := computeGenreStats_favorite_some readBooks e rest hc
      rw [hfav] at hfav2
      have hg : g = (pickFav e rest).1 := by
        cases hfav2
        rfl
      obtain ⟨l₁, l₂, heq, hpre, hle⟩ := pickFav_spec rest e
      refine ⟨(pickFav e rest).2, ?_, ?_, ?_⟩
      · rw [computeGenreStats_genreCounts, hc, heq, hg]
        exact List.mem_append_right l₁ (List.mem_cons_self _ l₂)
      · intro p hp
        rw [computeGenreStats_genreCounts, hc] at hp
        exact hle p hp
      · intro p hp hpn hpg
        rw [computeGenreStats_genreCounts, hc] at hp
        have hpl₂ : p ∈ l₂ := by
          rw [heq] at hp
          rcases List.mem_append.mp hp with h1 | h1
          · exact absurd hpn (Nat.ne_of_lt (hpre p h1))
          · rcases List.mem_cons.mp h1 with h2 | h2
            · exfalso
              apply hpg
              rw [h2, hg]
            · exact h2
        have hkeys : dedupFrom [] (readBooks.map Book.genre) =
            l₁.map Prod.fst ++ g :: l₂.map Prod.fst := by
          rw [← tally_keys, hc, heq, List.map_append, List.map_cons, hg]
        have hpmem : p.1 ∈ l₂.map Prod.fst := List.mem_map_of_mem Prod.fst hpl₂
        exact dedupFrom_firstIdx_lt (readBooks.map Book.genre) []
          (l₁.map Prod.fst) (l₂.map Prod.fst) g p.1 hkeys hpmem

/-- Witness for C3 at the sample read list: the favorite genre of the first
sample user has the maximal count 2 and is the earliest-occurring among
ties. -/
theorem computeGenreStats_favorite_spec_witness :
    ∃ n, ("Sci-Fi", n) ∈ (computeGenreStats (listReadBooksForUser demoStore 1)).genreCounts ∧
      (∀ p ∈ (computeGenreStats (listReadBooksForUser demoStore 1)).genreCounts, p.2 ≤ n) ∧
      (∀ p ∈ (computeGenreStats (listReadBooksForUser demoStore 1)).genreCounts,
        p.2 = n → p.1 ≠ "Sci-Fi" →
        firstIdx ((listReadBooksForUser demoStore 1).map Book.genre) "Sci-Fi" <
          firstIdx ((listReadBooksForUser demoStore 1).map Book.genre) p.1) :=
  (computeGenreStats_favorite_spec (listReadBooksForUser demoStore 1)).2 "Sci-Fi" (by rfl)

/-- Claim C4: for every user with zero read books, getRecommendations takes
the fallback path: a non-null recommended genre equal to the designated
fallback label, the fallback reason string, and suggestions drawn from the
globally most-common genre of the catalog, still excluding owned books. -/
theorem getRecommendations_fallback_branch (s : Store) (uid : Nat) (u : User)
    (hu : findUser s uid = some u)
    (hempty : listReadBooksForUser s uid = []) :
    ∃ r, getRecommendations s uid = Except.ok r ∧
      r.recommended_genre = fallbackLabel ∧
      r.reason = fallbackReason ∧
      (∀ b ∈ r.suggested_books, b ∈ s.books ∧ b.id ∉ ownedBookIds s uid ∧
        ∀ g, mostCommonGenre s.books = some g → b.genre = g) := by
  have hfav : (computeGenreStats (listReadBooksForUser s uid)).favoriteGenre = none := by
    rw [hempty]
    rfl
  refine ⟨_, getRecommendations_ok s uid u hu, ?_, ?_, ?_⟩
  · simp [branchGenre, hfav]
  · simp [branchReason, hfav]
  · intro b hb
    have hb2 : b ∈ candidateSet s uid := List.take_subset _ _ hb
    unfold candidateSet at hb2
    simp only [hfav] at hb2
    cases hmc : mostCommonGenre s.books with
    | none =>
      simp only [hmc] at hb2
      simp at hb2
    | some g0 =>
      simp only [hmc] at hb2
      have h3 := (mem_genreCandidates s uid g0 b).mp hb2
      refine ⟨h3.1, h3.2.2, ?_⟩
      intro g hgeq
      cases hgeq
      exact h3.2.1

/-- Witness for C4 at the sample store: the second sample user has no read
books and receives the fallback recommendation. -/
theorem getRecommendations_fallback_branch_witness :
    ∃ r, getRecommendations demoStore 2 = Except.ok r ∧
      r.recommended_genre = fallbackLabel ∧
      r.reason = fallbackReason ∧
      (∀ b ∈ r.suggested_books, b ∈ demoStore.books ∧ b.id ∉ ownedBookIds demoStore 2 ∧
        ∀ g, mostCommonGenre demoStore.books = some g → b.genre = g) :=
  getRecommendations_fallback_branch demoStore 2 { id := 2, name := "Bob" }
    (by rfl) (by rfl)

/-- Claim C5: `computeGenreStats` returns counts mapping each distinct genre
string (case-sensitive exact match) to its number of occurrences in the
input, the counts sum exactly to the length of the input list, and the empty
list yields the empty map. -/
theorem computeGenreStats_counts_spec (readBooks : List Book) :
    (∀ g n, (g, n) ∈ (computeGenreStats readBooks).genreCounts →
        n = (readBooks.map Book.genre).count g) ∧
    (∀ g, g ∈ readBooks.map Book.genre →
        (g, (readBooks.map Book.genre).count g) ∈
          (computeGenreStats readBooks).genreCounts) ∧
    ((computeGenreStats readBooks).genreCounts.map Prod.snd).sum = readBooks.length ∧
    (readBooks = [] → (computeGenreStats readBooks).genreCounts = []) := by
  refine ⟨?_, ?_, ?_, ?_⟩
  · intro g n hm
    rw [computeGenreStats_genreCounts] at hm
    have hl := lookupCount_of_mem _ g n (tally_keys_nodup _) hm
    rw [← hl, tally_lookupCount]
  · intro g hg
    rw [computeGenreStats_genreCounts]
    have hcount : (readBooks.map Book.genre).count g ≠ 0 := by
      intro h0
      exact List.count_eq_zero.mp h0 hg
    have hne : lookupCount (tally (readBooks.map Book.genre)) g ≠ 0 := by
      rw [tally_lookupCount]
      exact hcount
    have hkeys := mem_keys_of_lookupCount_ne_zero _ g hne
    have hmem := mem_of_mem_keys _ g hkeys
    rwa [tally_lookupCount] at hmem
  · rw [computeGenreStats_genreCounts, tally_sum, List.length_map]
  · intro h
    subst h
    rfl

/-- Witness for C5 at the sample read list: the count recorded for the
favorite genre equals its number of occurrences. -/
theorem computeGenreStats_counts_spec_witness :
    2 = ((listReadBooksForUser demoStore 1).map Book.genre).count "Sci-Fi" :=
  (computeGenreStats_counts_spec (listReadBooksForUser demoStore 1)).1
    "Sci-Fi" 2 (by decide)

/-- Claim C6: getRecommendations signals NotFound exactly when the user id
does not resolve to an existing user; when the user exists and the candidate
set after exclusion is empty it still succeeds, returning empty suggestions
together with the same branch genre and reason. -/
theorem getRecommendations_notfound_iff (s : Store) (uid : Nat) :
    (getRecommendations s uid = Except.error ApiError.NotFound ↔
      findUser s uid = none) ∧
    (∀ u, findUser s uid = some u → candidateSet s uid = [] →
      getRecommendations s uid =
        Except.ok { recommended_genre := branchGenre s uid
                    reason := branchReason s uid
                    suggested_books := [] }) := by
  constructor
  · constructor
    · intro herr
      cases hu : findUser s uid with
      | none => rfl
      | some u =>
        rw [getRecommendations_ok s uid u hu] at herr
        cases herr
    · intro hnone
      exact getRecommendations_err s uid hnone
  · intro u hu hcand
    rw [getRecommendations_ok s uid u hu, hcand]
    rfl

/-- Witness for C6: on the sample store with an empty catalog the candidate
set is empty, and the first user still receives a successful empty
recommendation. -/
theorem getRecommendations_notfound_iff_witness :
    getRecommendations emptyCatalogStore 1 =
      Except.ok { recommended_genre := branchGenre emptyCatalogStore 1
                  reason := branchReason emptyCatalogStore 1
                  suggested_books := [] } :=
  (getRecommendations_notfound_iff emptyCatalogStore 1).2
    { id := 1, name := "Alice" } (by rfl) (by rfl)

theorem updateFirst_eq_none (bid : Nat) (r : Int) :
    ∀ l : List Book, updateFirst bid r l = none ↔ ∀ b ∈ l, b.id ≠ bid := by
  intro l
  induction l with
  | nil => simp [updateFirst]
  | cons b rest ih =>
    by_cases hb : b.id = bid
    · simp [updateFirst, hb, List.forall_mem_cons]
    · cases hrest : updateFirst bid r rest with
      | none =>
        have hrest2 := ih.mp hrest
        simp only [updateFirst, if_neg hb, hrest, List.forall_mem_cons]
        simp [hb]
        exact hrest2
      | some p =>
        obtain ⟨l2, b2⟩ := p
        simp only [updateFirst, if_neg hb, hrest, List.forall_mem_cons]
        constructor
        · intro hfalse
          cases hfalse
        · intro hall
          have hnone := ih.mpr hall.2
          rw [hrest] at hnone
          cases hnone

/-- Claim C7: markBookRead fails with ValidationError whenever the rating is
outside the integer range 0-5 (in particular rating 6 is rejected), and,
for an in-range rating, fails with NotFound whenever the book id does not
refer to an existing book. -/
theorem markBookRead_errors (s : Store) (bid : Nat) (r : Int) :
    ((r < 0 ∨ 5 < r) →
      markBookRead s bid r = Except.error ApiError.ValidationError) ∧
    (0 ≤ r → r ≤ 5 → (∀ b ∈ s.books, b.id ≠ bid) →
      markBookRead s bid r = Except.error ApiError.NotFound) := by
  constructor
  · intro hr
    have hv : validRating r = false := by
      simp only [validRating, decide_eq_false_iff_not]
      intro hcon
      rcases hr with h | h
      · exact absurd hcon.1 (by omega)
      · exact absurd hcon.2 (by omega)
    simp [markBookRead, hv]
  · intro h0 h5 hnone
    have hv : validRating r = true := by
      simp only [validRating, decide_eq_true_eq]
      exact ⟨h0, h5⟩
    have hup : updateFirst bid r s.books = none :=
      (updateFirst_eq_none bid r s.books).mpr hnone
    simp [markBookRead, hv, hup]

/-- Witness for C7: marking the fourth sample book read with rating 6 is
rejected with ValidationError. -/
theorem markBookRead_errors_witness :
    markBookRead demoStore 4 6 = Except.error ApiError.ValidationError :=
  (markBookRead_errors demoStore 4 6).1 (Or.inr (by decide))

/-- Claim C8: for every existing user getUserStats returns the user, the
count of that user's books with is_read = true, and the Genre Analyzer
output on the read books; on the sample scenario with read genres Sci-Fi,
Sci-Fi, Drama and ratings 5, 4, 3 it returns favorite Sci-Fi, 3 total books,
and counts Sci-Fi 2, Drama 1. -/
theorem getUserStats_spec (s : Store) (uid : Nat) (u : User)
    (hu : findUser s uid = some u) :
    getUserStats s uid =
      Except.ok
        { user := u
          total_books := ((listBooksForUser s uid).filter (fun b => b.is_read)).length
          favorite_genre := (computeGenreStats (listReadBooksForUser s uid)).favoriteGenre
          genre_counts := (computeGenreStats (listReadBooksForUser s uid)).genreCounts } ∧
    getUserStats demoStore 1 =
      Except.ok
        { user := { id := 1, name := "Alice" }
          total_books := 3
          favorite_genre := some "Sci-Fi"
          genre_counts := [("Sci-Fi", 2), ("Drama", 1)] } := by
  constructor
  · unfold getUserStats
    rw [hu]
    rfl
  · rfl

/-- Witness for C8 at the sample store and its first user. -/
theorem getUserStats_spec_witness :
    getUserStats demoStore 1 =
      Except.ok
        { user := { id := 1, name := "Alice" }
          total_books := 3
          favorite_genre := some "Sci-Fi"
          genre_counts := [("Sci-Fi", 2), ("Drama", 1)] } :=
  (getUserStats_spec demoStore 1 { id := 1, name := "Alice" } (by rfl)).2

theorem updateFirst_spec (bid : Nat) (r : Int) :
    ∀ (l l2 : List Book) (b2 : Book),
      updateFirst bid r l = some (l2, b2) →
      ∃ l₁ b l₃, l = l₁ ++ b :: l₃ ∧ b.id = bid ∧
        b2 = { b with is_read := true, rating := r } ∧
        l2 = l₁ ++ ({ b with is_read := true, rating := r } : Book) :: l₃ ∧
        ∀ p ∈ l₁, p.id ≠ bid := by
  intro l
  induction l with
  | nil =>
    intro l2 b2 h
    simp [updateFirst] at h
  | cons b rest ih =>
    intro l2 b2 h
    by_cases hb : b.id = bid
    · rw [updateFirst, if_pos hb] at h
      have hpair := Option.some.inj h
      have h1 : ({ b with is_read := true, rating := r } : Book) :: rest = l2 :=
        congrArg Prod.fst hpair
      have h2 : ({ b with is_read := true, rating := r } : Book) = b2 :=
        congrArg Prod.snd hpair
      exact ⟨[], b, rest, by simp, hb, h2.symm, by rw [← h1]; simp, by simp⟩
    · rw [updateFirst, if_neg hb] at h
      cases hrest : updateFirst bid r rest with
      | none =>
        rw [hrest] at h
        cases h
      | some p =>
        obtain ⟨rest2, bb⟩ := p
        rw [hrest] at h
        have hpair := Option.some.inj h
        have h1 : b :: rest2 = l2 := congrArg Prod.fst hpair
        have h2 : bb = b2 := congrArg Prod.snd hpair
        obtain ⟨l₁, bm, l₃, he, hid, hbb, hl2, hpre⟩ := ih rest2 bb hrest
        refine ⟨b :: l₁, bm, l₃, by rw [List.cons_append, ← he], hid,
          by rw [← h2]; exact hbb, by rw [← h1, hl2, List.cons_append], ?_⟩
        intro q hq
        rcases List.mem_cons.mp hq with hh | hh
        · rw [hh]
          exact hb
        · exact hpre q hh

/-- Claim C9: a successful markBookRead changes only the is_read and rating
fields of the first stored book with the given id (setting is_read = true
and assigning the rating), leaving every other field of that book, every
other book, and every user unchanged; getUserStats and getRecommendations
take the store as a value in this model and return no modified store. -/
theorem markBookRead_frame (s s2 : Store) (bid : Nat) (r : Int) (b2 : Book)
    (h : markBookRead s bid r = Except.ok (s2, b2)) :
    s2.users = s.users ∧
    ∃ l₁ b l₃, s.books = l₁ ++ b :: l₃ ∧ b.id = bid ∧
      b2 = { b with is_read := true, rating := r } ∧
      s2.books = l₁ ++ ({ b with is_read := true, rating := r } : Book) :: l₃ ∧
      ∀ p ∈ l₁, p.id ≠ bid := by
  unfold markBookRead at h
  by_cases hv : validRating r
  · rw [if_pos hv] at h
    cases hup : updateFirst bid r s.books with
    | none =>
      rw [hup] at h
      cases h
    | some p =>
      obtain ⟨books2, bb⟩ := p
      rw [hup] at h
      injection h with hpair
      have hs2 : s2 = { s with books := books2 } := (congrArg Prod.fst hpair).symm
      have hbb : b2 = bb := (congrArg Prod.snd hpair).symm
      subst hs2
      subst hbb
      exact ⟨rfl, updateFirst_spec bid r s.books books2 b2 hup⟩
  · rw [if_neg hv] at h
    cases h

/-- The fourth sample book after being marked read with rating 3. -/
def demoBook4Read : Book :=
  { id := 4, title := "Neuromancer", author := "Gibson", genre := "Sci-Fi",
    cover_url := none, is_read := true, rating := 3, owner_user_id := 2 }

/-- The sample store after the fourth book is marked read with rating 3. -/
def demoStoreAfterMark : Store :=
  { users := demoUsers,
    books := [demoBook1, demoBook2, demoBook3, demoBook4Read, demoBook5] }

/-- Witness for C9: marking the fourth sample book read with rating 3 updates
exactly that book and keeps the users list. -/
theorem markBookRead_frame_witness :
    demoStoreAfterMark.users = demoStore.users ∧
    ∃ l₁ b l₃, demoStore.books = l₁ ++ b :: l₃ ∧ b.id = 4 ∧
      demoBook4Read = { b with is_read := true, rating := 3 } ∧
      demoStoreAfterMark.books =
        l₁ ++ ({ b with is_read := true, rating := 3 } : Book) :: l₃ ∧
      ∀ p ∈ l₁, p.id ≠ 4 :=
  markBookRead_frame demoStore demoStoreAfterMark 4 3 demoBook4Read (by rfl)

/-- Claim C10: at the public API boundary every book's is_read field is the
integer 0 or 1; the mark-as-read picker of src/App.js offers exactly the
books with is_read = 0, and a book card is rendered as read with its rating
exactly when is_read = 1, which under the serialization coincides with the
stored flag. -/
theorem frontend_is_read_encoding :
    (∀ b : Book, (serializeBook b).is_read = 0 ∨ (serializeBook b).is_read = 1) ∧
    (∀ (books : List ApiBook) (b : ApiBook),
      b ∈ markReadPickerOptions books ↔ b ∈ books ∧ b.is_read = 0) ∧
    (∀ b : ApiBook, renderedAsRead b = true ↔ b.is_read = 1) ∧
    (∀ b : Book, renderedAsRead (serializeBook b) = b.is_read) := by
  refine ⟨?_, ?_, ?_, ?_⟩
  · intro b
    cases hb : b.is_read <;> simp [serializeBook, hb]
  · intro books b
    simp [markReadPickerOptions, List.mem_filter]
  · intro b
    simp [renderedAsRead]
  · intro b
    cases hb : b.is_read <;> simp [serializeBook, renderedAsRead, hb]

/-- Witness for C10: the first sample book serializes with an integer
is_read field. -/
theorem frontend_is_read_encoding_witness :
    (serializeBook demoBook1).is_read = 0 ∨ (serializeBook demoBook1).is_read = 1 :=
  frontend_is_read_encoding.1 demoBook1

end BookRec
